import Mathlib

/-!
Shallow embedding of the slot-booking core of `src/streamlit_app.py`
(a Streamlit telehealth prototype backed by three sqlite tables:
`physicians`, `availability`, `appointments`).

Instants are ISO8601 TEXT columns in the source and are compared by
SQLite as strings; they are embedded as `String` with its lexicographic
linear order, which agrees with chronological order for a uniform
ISO8601 format. Row sets are embedded as lists in insertion order
(SQLite returns unordered rows; every query of the source that cares
about order carries an ORDER BY, embedded as an explicit sort).
Generated values that the source obtains impurely (`uuid.uuid4()`,
`datetime.utcnow()`) are passed as explicit parameters.
-/

namespace PhysicianConnect

/-- A row of the `physicians` table (columns used by the booking core). -/
structure Physician where
  id : String
  full_name : String
  country : String
  timezone : String
deriving DecidableEq

/-- A row of the `availability` table: one publishable slot.
`booked` embeds the INTEGER 0/1 claim flag. -/
structure Slot where
  id : String
  physician_id : String
  start_utc : String
  end_utc : String
  booked : Bool
deriving DecidableEq

/-- A row of the `appointments` table. -/
structure Appointment where
  id : String
  physician_id : String
  physician_name : String
  user_name : String
  user_email : String
  user_timezone : String
  start_utc : String
  end_utc : String
  meeting_link : String
  reason : String
  created_at_utc : String
  status : String
deriving DecidableEq

/-- The persistent state: the three tables of `telehealth.db`. -/
structure DB where
  physicians : List Physician
  availability : List Slot
  appointments : List Appointment
deriving DecidableEq

/-- Result of `book_slot`: the source returns `(appt_id, None)` on success
and `(None, message)` on failure. -/
inductive BookResult where
  | ok (appt_id : String)
  | err (msg : String)
deriving DecidableEq

/-- `SELECT ... FROM availability WHERE id = ?` followed by `fetchone`
(`id` is the primary key, so the first match is the row). -/
def findSlot (db : DB) (slot_id : String) : Option Slot :=
  db.availability.find? (fun s => s.id == slot_id)

/-- The availability UPDATE issued by `book_slot`:
`UPDATE availability SET booked = 1 WHERE id = ?`. -/
def markBooked (avail : List Slot) (slot_id : String) : List Slot :=
  avail.map (fun t => if t.id == slot_id then { t with booked := true } else t)

/-- The Appointment row `book_slot` INSERTs, built from the slot row,
the resolved physician name and the caller-supplied patient fields. -/
def mkAppointment (s : Slot) (physician_name user_name user_email user_tz reason
    appt_id created_at : String) : Appointment :=
  { id := appt_id
    physician_id := s.physician_id
    physician_name := physician_name
    user_name := user_name
    user_email := user_email
    user_timezone := user_tz
    start_utc := s.start_utc
    end_utc := s.end_utc
    meeting_link := "https://example.test/meet/" ++ appt_id
    reason := reason
    created_at_utc := created_at
    status := "scheduled" }

/-- `book_slot(conn, slot_id, user_name, user_email, user_tz, reason)`
(src/streamlit_app.py lines 171-197), run to completion with no
interleaving. `appt_id` stands for the fresh `uuid.uuid4()` and
`created_at` for the `datetime.utcnow().isoformat()` read. -/
def book_slot (db : DB) (slot_id user_name user_email user_tz reason
    appt_id created_at : String) : BookResult × DB :=
  match findSlot db slot_id with
  | none => (.err "Slot not found.", db)
  | some s =>
    if s.booked then (.err "Sorry, this slot was just booked.", db)
    else
      match db.physicians.find? (fun p => p.id == s.physician_id) with
      | none => (.err "Physician not found.", db)
      | some p =>
        (.ok appt_id,
          { db with
              appointments := db.appointments ++
                [mkAppointment s p.full_name user_name user_email user_tz reason
                  appt_id created_at],
              availability := markBooked db.availability slot_id })

/-- Sample rows in the shape of `seed_sample_data`, used as concrete inputs. -/
def demoPhysician : Physician :=
  { id := "p1", full_name := "Dr. Aisha Rahman", country := "Pakistan",
    timezone := "Asia/Karachi" }

def demoSlot : Slot :=
  { id := "s1", physician_id := "p1", start_utc := "2024-01-10T14:00:00+00:00",
    end_utc := "2024-01-10T14:30:00+00:00", booked := false }

def demoDB : DB :=
  { physicians := [demoPhysician], availability := [demoSlot], appointments := [] }

/-!
Interleaved execution of `book_slot`.

The source takes no lock: each SQL statement executes atomically, but between
the SELECT that reads the `booked` flag (line 174) and the UPDATE that sets it
(line 195) other callers are free to run. The machine below gives each
concurrent `book_slot` call one program counter per SQL statement of the
source; thread-local work (the `if booked` test, building the meeting link)
is attached to the preceding statement, which only makes each step coarser
(more atomic) than the source and hence under-approximates the interleavings.
-/

/-- Program counter of one in-flight `book_slot` call, one position per SQL
statement of the source between lines 174 and 195. -/
inductive TPhase where
  | ready
  | atPhysSelect (s : Slot)
  | atApptInsert (s : Slot) (physician_name : String)
  | atBookedUpdate (s : Slot) (physician_name : String)
  | finished (r : BookResult)
deriving DecidableEq

/-- One in-flight `book_slot` call: its control state plus its arguments
(and its pre-drawn fresh uuid / clock reading). -/
structure Thread where
  phase : TPhase
  slot_id : String
  user_name : String
  user_email : String
  user_tz : String
  reason : String
  appt_id : String
  created_at : String
deriving DecidableEq

/-- A `book_slot` call that has not yet executed its first statement. -/
def initThread (slot_id user_name user_email user_tz reason appt_id
    created_at : String) : Thread :=
  { phase := .ready, slot_id := slot_id, user_name := user_name,
    user_email := user_email, user_tz := user_tz, reason := reason,
    appt_id := appt_id, created_at := created_at }

/-- One atomic step of an in-flight `book_slot` call against the shared
database: executes the thread's next SQL statement of the source. -/
def threadStep (db : DB) (t : Thread) : DB × Thread :=
  match t.phase with
  | .ready =>
    match findSlot db t.slot_id with
    | none => (db, { t with phase := .finished (.err "Slot not found.") })
    | some s =>
      if s.booked then
        (db, { t with phase := .finished (.err "Sorry, this slot was just booked.") })
      else (db, { t with phase := .atPhysSelect s })
  | .atPhysSelect s =>
    match db.physicians.find? (fun p => p.id == s.physician_id) with
    | none => (db, { t with phase := .finished (.err "Physician not found.") })
    | some p => (db, { t with phase := .atApptInsert s p.full_name })
  | .atApptInsert s pname =>
    ({ db with appointments := db.appointments ++
        [mkAppointment s pname t.user_name t.user_email t.user_tz t.reason
          t.appt_id t.created_at] },
      { t with phase := .atBookedUpdate s pname })
  | .atBookedUpdate _ _ =>
    ({ db with availability := markBooked db.availability t.slot_id },
      { t with phase := .finished (.ok t.appt_id) })
  | .finished _ => (db, t)

/-- Interleave two in-flight calls under a schedule: `true` steps the first
thread, `false` the second. -/
def run2 : List Bool → DB → Thread → Thread → DB × Thread × Thread
  | [], db, t1, t2 => (db, t1, t2)
  | c :: cs, db, t1, t2 =>
    if c then
      let p := threadStep db t1
      run2 cs p.1 p.2 t2
    else
      let p := threadStep db t2
      run2 cs p.1 t1 p.2

/-- First racing caller: books `s1` for Alice. -/
def raceThread1 : Thread :=
  initThread "s1" "Alice" "alice@example.com" "America/New_York" "fever"
    "a1" "2024-01-01T00:00:00"

/-- Second racing caller: books the same `s1` for Bob. -/
def raceThread2 : Thread :=
  initThread "s1" "Bob" "bob@example.com" "Europe/Madrid" "cough"
    "a2" "2024-01-01T00:00:01"

/-- The losing interleaving: both callers execute the availability SELECT and
the `booked` check (and the physician SELECT) before either issues its
INSERT/UPDATE. -/
def raceSchedule : List Bool :=
  [true, false, true, false, true, true, false, false]

/-- Number of appointment rows created for a given slot. The `appointments`
schema carries no slot id; the only reference an Appointment has to its slot
is the copied `(physician_id, start_utc, end_utc)` triple. -/
def appointmentsForSlot (db : DB) (s : Slot) : Nat :=
  (db.appointments.filter (fun a =>
    a.physician_id == s.physician_id && a.start_utc == s.start_utc &&
      a.end_utc == s.end_utc)).length

/-- Claim flag of a slot as the source reads it (first row with that id). -/
def slotClaimed (db : DB) (slot_id : String) : Bool :=
  match findSlot db slot_id with
  | some s => s.booked
  | none => false

/-!
`list_slots_for_physician` (src/streamlit_app.py lines 155-163):
`SELECT id, start_utc, end_utc, booked FROM availability WHERE physician_id = ?`
plus, when `only_future`, `AND end_utc >= ?` with `? = datetime.utcnow()`,
then `ORDER BY start_utc ASC`. The internal `utcnow()` read is embedded as the
explicit parameter `now`; SQLite compares TEXT columns bytewise, embedded as
the lexicographic order `textLE` on the character lists of the strings.
-/

/-- Lexicographic (SQLite TEXT) less-or-equal on character lists. -/
def lexLeb : List Char → List Char → Bool
  | [], _ => true
  | _ :: _, [] => false
  | c :: cs, d :: ds =>
    if c.toNat < d.toNat then true
    else if d.toNat < c.toNat then false
    else lexLeb cs ds

/-- SQLite TEXT `<=` on two strings (bytewise, lexicographic); for the
uniform ISO8601 format the source stores, this agrees with chronological
order of the instants. -/
def textLE (a b : String) : Bool := lexLeb a.data b.data

/-- The row projection the SELECT of `list_slots_for_physician` returns. -/
structure SlotView where
  id : String
  start_utc : String
  end_utc : String
  booked : Bool
deriving DecidableEq

/-- `ORDER BY start_utc ASC` comparison on availability rows. -/
def slotLE (a b : Slot) : Prop := textLE a.start_utc b.start_utc = true

instance : DecidableRel slotLE := fun a b =>
  inferInstanceAs (Decidable (textLE a.start_utc b.start_utc = true))

/-- `ORDER BY start_utc ASC` comparison on the returned rows. -/
def viewLE (a b : SlotView) : Prop := textLE a.start_utc b.start_utc = true

/-- The WHERE clause of `list_slots_for_physician`; the future filter is the
source's `end_utc >= now`. -/
def slotWhere (physician_id : String) (only_future : Bool) (now : String)
    (s : Slot) : Bool :=
  s.physician_id == physician_id && (!only_future || textLE now s.end_utc)

/-- Projection of an availability row to the SELECTed columns. -/
def slotView (s : Slot) : SlotView :=
  { id := s.id, start_utc := s.start_utc, end_utc := s.end_utc,
    booked := s.booked }

/-- `list_slots_for_physician(conn, physician_id, only_future)`
(src/streamlit_app.py lines 155-163); `now` is the function's internal
`datetime.utcnow().isoformat()` read, made explicit. -/
def list_slots_for_physician (db : DB) (physician_id : String)
    (only_future : Bool) (now : String) : List SlotView :=
  ((db.availability.filter (slotWhere physician_id only_future now)).insertionSort
      slotLE).map slotView

/-!
TimeZoneConverter. The display helper `to_user_local(x, user_tz)` is called at
src/streamlit_app.py lines 203-208 but its definition (and any inverse
conversion) is cut off from the truncated source file, so the converter is
modelled from the spec (§4.1).
-/

/-- Modelled from the spec: the offset rules of one named zone — an initial
UTC offset and a list of DST-style transitions `(start instant, new offset)`,
each taking effect from its start instant on (later list entries with a
start at or before the instant override earlier ones). Instants and offsets
are integers (e.g. minutes since an epoch / minutes of offset). -/
structure ZoneRules where
  initOffset : Int
  transitions : List (Int × Int)
deriving DecidableEq

/-- The offset a zone applies at an absolute instant `t`. -/
def offsetAt (z : ZoneRules) (t : Int) : Int :=
  z.transitions.foldl (fun acc tr => if tr.1 ≤ t then tr.2 else acc) z.initOffset

/-- Modelled from the spec: `toLocal(instant, zone)` — the local civil time is
the instant shifted by the zone's offset at that instant. Pure and
deterministic by construction. -/
def toLocal (z : ZoneRules) (t : Int) : Int := t + offsetAt z t

/-- Every offset a zone can ever apply. -/
def zoneOffsets (z : ZoneRules) : List Int :=
  z.initOffset :: z.transitions.map Prod.snd

/-- The absolute instants that a zone maps to the local civil time `l`:
for each offset the zone can apply, `l - o` qualifies when the zone really
applies `o` there. A DST fold is exactly the case where this list has two
distinct elements. -/
def absCandidates (z : ZoneRules) (l : Int) : List Int :=
  (zoneOffsets z).filterMap (fun o => if toLocal z (l - o) = l then some (l - o) else none)

/-- Modelled from the spec: `toAbsolute(localCivilTime, zone)` — the instant
whose local time is `l`, resolving a DST fold by the spec's deterministic
"pick the later offset" rule (the later of the two instants); `none` when no
instant maps to `l` (a spring-forward gap). -/
def toAbsolute (z : ZoneRules) (l : Int) : Option Int :=
  (absCandidates z l).max?

/-- Modelled from the spec: the zone-name registry (IANA-style identifiers
resolving to offset rules); a handful of zones suffices for the model. The
`America/New_York` entry has one DST season, so it exhibits both a gap and a
fold. -/
def zoneTable : List (String × ZoneRules) :=
  [("UTC", ⟨0, []⟩),
   ("Asia/Karachi", ⟨300, []⟩),
   ("America/New_York", ⟨-300, [(100000, -240), (200000, -300)]⟩)]

def lookupZone (name : String) : Option ZoneRules :=
  (zoneTable.find? (fun e => e.1 == name)).map Prod.snd

/-- Whether a zone name is a recognized identifier. -/
def recognizedZone (name : String) : Bool := (lookupZone name).isSome

/-- The error kind of the spec's TimeZoneConverter. -/
inductive TZError where
  | InvalidTimeZone
deriving DecidableEq

/-- Modelled from the spec: `to_user_local` — convert an absolute instant to
local civil time in a named zone, failing with `InvalidTimeZone` exactly when
the name is not recognized. -/
def to_user_local (t : Int) (name : String) : Except TZError Int :=
  match lookupZone name with
  | none => .error .InvalidTimeZone
  | some z => .ok (toLocal z t)

/-- Modelled from the spec: the named `toAbsolute` direction. -/
def to_absolute (l : Int) (name : String) : Except TZError (Option Int) :=
  match lookupZone name with
  | none => .error .InvalidTimeZone
  | some z => .ok (toAbsolute z l)

/-!
The full set of state-changing operations of the core. Besides `book_slot`,
the source writes to the tables only in `seed_sample_data` (plain INSERTs of
physicians and of availability rows with `booked = 0`); a physician rename is
included as the external PhysicianDirectory mutation the spec's
denormalization property quantifies over. No operation anywhere writes
`booked = 0` to an existing row.
-/

/-- `INSERT INTO availability (id, physician_id, start_utc, end_utc, booked)
VALUES (?, ?, ?, ?, 0)` as issued by `seed_sample_data`; an INSERT whose id
collides with an existing row violates the PRIMARY KEY and leaves the table
unchanged. -/
def insert_slot (db : DB) (id physician_id start_utc end_utc : String) : DB :=
  if db.availability.any (fun s => s.id == id) then db
  else { db with availability :=
          db.availability ++ [⟨id, physician_id, start_utc, end_utc, false⟩] }

/-- `INSERT INTO physicians ...` as issued by `seed_sample_data`, with the
same PRIMARY KEY behaviour. -/
def insert_physician (db : DB) (p : Physician) : DB :=
  if db.physicians.any (fun q => q.id == p.id) then db
  else { db with physicians := db.physicians ++ [p] }

/-- Modelled from the spec: a rename in the external PhysicianDirectory
(`UPDATE physicians SET full_name = ?`); no source path performs it, and the
spec's denormalization property quantifies over it. It touches only the
`physicians` table. -/
def rename_physician (db : DB) (physician_id new_name : String) : DB :=
  { db with physicians := db.physicians.map (fun p =>
      if p.id == physician_id then { p with full_name := new_name } else p) }

/-- One state-changing operation of the core. -/
inductive CoreOp where
  | book (slot_id user_name user_email user_tz reason appt_id created_at : String)
  | publish (id physician_id start_utc end_utc : String)
  | addPhysician (p : Physician)
  | rename (physician_id new_name : String)
deriving DecidableEq

def applyOp (db : DB) : CoreOp → DB
  | .book sid un ue tz rsn aid ca => (book_slot db sid un ue tz rsn aid ca).2
  | .publish i pid s e => insert_slot db i pid s e
  | .addPhysician p => insert_physician db p
  | .rename pid n => rename_physician db pid n

def applyOps (db : DB) (ops : List CoreOp) : DB := ops.foldl applyOp db

/-- The claim flag of the row found for `slot_id`, over a bare table. -/
def claimedIn (avail : List Slot) (slot_id : String) : Bool :=
  match avail.find? (fun s => s.id == slot_id) with
  | some s => s.booked
  | none => false

/-- The row projection `list_user_appointments` SELECTs. -/
structure ApptView where
  id : String
  physician_name : String
  start_utc : String
  end_utc : String
  meeting_link : String
  status : String
  reason : String
deriving DecidableEq

/-- Projection of an appointment row to the SELECTed columns. -/
def apptView (a : Appointment) : ApptView :=
  { id := a.id, physician_name := a.physician_name, start_utc := a.start_utc,
    end_utc := a.end_utc, meeting_link := a.meeting_link, status := a.status,
    reason := a.reason }

/-- `list_user_appointments(conn, user_email)` (src/streamlit_app.py lines
199-202). The source file is cut off inside this function's SQL string;
embedded from the visible fragment
`SELECT id, physician_name, start_utc, end_utc, meeting_link, status, reason
FROM appointments WHERE user_email = ?` (any ORDER BY is lost with the
truncation; no claim here depends on this listing's order). -/
def list_user_appointments (db : DB) (user_email : String) : List ApptView :=
  (db.appointments.filter (fun a => a.user_email == user_email)).map apptView

/-- The listing columns other than the claim flag. -/
def viewKey (v : SlotView) : String × String × String :=
  (v.id, v.start_utc, v.end_utc)

/-- A slot lying entirely in the past relative to the booking moment. -/
def pastSlot : Slot :=
  { id := "s0", physician_id := "p1", start_utc := "2000-01-01T14:00:00+00:00",
    end_utc := "2000-01-01T14:30:00+00:00", booked := false }

def pastDB : DB :=
  { physicians := [demoPhysician], availability := [pastSlot],
    appointments := [] }

example :
    (book_slot demoDB "s1" "Alice" "alice@example.com" "America/New_York" "fever"
      "a1" "2024-01-01T00:00:00").1 = .ok "a1" := by decide

example :
    (book_slot demoDB "s9" "Alice" "alice@example.com" "America/New_York" "fever"
      "a1" "2024-01-01T00:00:00").1 = .err "Slot not found." := by decide

/-- C2: whenever `book_slot` returns an error, the database it hands back is
exactly the database it was given: every error path of the source
(`Slot not found.`, already booked, `Physician not found.`) returns before the
INSERT and UPDATE are issued, so neither the availability table nor the
appointment ledger is changed by a failed call. -/
theorem book_slot_error_frame (db : DB)
    (slot_id user_name user_email user_tz reason appt_id created_at msg : String)
    (h : (book_slot db slot_id user_name user_email user_tz reason
            appt_id created_at).1 = .err msg) :
    (book_slot db slot_id user_name user_email user_tz reason
        appt_id created_at).2 = db := by
  unfold book_slot at h ⊢
  cases hf : findSlot db slot_id with
  | none => simp [hf]
  | some s =>
    by_cases hb : s.booked
    · simp [hf, hb]
    · cases hp : db.physicians.find? (fun p => p.id == s.physician_id) with
      | none => simp [hf, hb, hp]
      | some p => simp [hf, hb, hp] at h

/-- Witness for C2 at a concrete input: booking a nonexistent slot id on the
sample database fails and leaves the database unchanged. -/
theorem book_slot_error_frame_witness :
    (book_slot demoDB "s9" "Alice" "alice@example.com" "America/New_York"
        "fever" "a1" "2024-01-01T00:00:00").2 = demoDB :=
  book_slot_error_frame demoDB "s9" "Alice" "alice@example.com"
    "America/New_York" "fever" "a1" "2024-01-01T00:00:00" "Slot not found."
    (by decide)

/-- Soundness of the step machine: a call that runs its four statements with
no interference computes exactly `book_slot`. -/
theorem threadStep_sequential (db : DB)
    (slot_id user_name user_email user_tz reason appt_id created_at : String) :
    (let t0 := initThread slot_id user_name user_email user_tz reason appt_id
        created_at
     let p1 := threadStep db t0
     let p2 := threadStep p1.1 p1.2
     let p3 := threadStep p2.1 p2.2
     let p4 := threadStep p3.1 p3.2
     (p4.1, p4.2.phase)) =
      ((book_slot db slot_id user_name user_email user_tz reason appt_id
          created_at).2,
        .finished (book_slot db slot_id user_name user_email user_tz reason
          appt_id created_at).1) := by
  cases hf : findSlot db slot_id with
  | none => simp [initThread, threadStep, book_slot, hf]
  | some s =>
    by_cases hb : s.booked
    · simp [initThread, threadStep, book_slot, hf, hb]
    · cases hp : db.physicians.find? (fun p => p.id == s.physician_id) with
      | none => simp [initThread, threadStep, book_slot, hf, hb, hp]
      | some p => simp [initThread, threadStep, book_slot, hf, hb, hp]

/-- C1: the claim fails on the code. `book_slot` takes no lock between the
SELECT that reads the `booked` flag and the UPDATE that sets it, so under the
interleaving `raceSchedule` two concurrent calls on the same never-claimed
slot BOTH return success — the claim requires that exactly one succeed and
that the read and the transition be indivisible. -/
theorem claimSlot_race_both_succeed :
    (run2 raceSchedule demoDB raceThread1 raceThread2).2.1.phase =
        .finished (.ok "a1") ∧
      (run2 raceSchedule demoDB raceThread1 raceThread2).2.2.phase =
        .finished (.ok "a2") := by
  constructor <;> rfl

/-- C3: the claim fails on the code. In the interleaved state reached by
`raceSchedule`, two Appointment rows reference the single slot `s1`
(the claim allows at most one); moreover after the first caller's INSERT but
before its UPDATE (five steps in), an Appointment for `s1` exists while the
slot is still unclaimed, so the insert and the claimed transition do not
become visible together. -/
theorem appointment_slot_invariant_violated :
    (appointmentsForSlot (run2 raceSchedule demoDB raceThread1 raceThread2).1
          demoSlot = 2 ∧
        slotClaimed (run2 raceSchedule demoDB raceThread1 raceThread2).1 "s1" =
          true) ∧
      (appointmentsForSlot
            (run2 (raceSchedule.take 5) demoDB raceThread1 raceThread2).1
            demoSlot = 1 ∧
        slotClaimed
            (run2 (raceSchedule.take 5) demoDB raceThread1 raceThread2).1 "s1" =
          false) := by
  constructor <;> constructor <;> rfl

theorem lexLeb_cons_iff (c d : Char) (cs ds : List Char) :
    lexLeb (c :: cs) (d :: ds) = true ↔
      c.toNat < d.toNat ∨ (c.toNat = d.toNat ∧ lexLeb cs ds = true) := by
  simp only [lexLeb]
  split_ifs with h1 h2
  · simp [h1]
  · constructor
    · intro h
      exact absurd h (by simp)
    · rintro (h | ⟨h, _⟩) <;> omega
  · have h : c.toNat = d.toNat := by omega
    simp [h]

theorem lexLeb_total : ∀ as bs : List Char,
    lexLeb as bs = true ∨ lexLeb bs as = true
  | [], _ => Or.inl rfl
  | _ :: _, [] => Or.inr rfl
  | c :: cs, d :: ds => by
    rcases Nat.lt_trichotomy c.toNat d.toNat with h | h | h
    · exact Or.inl ((lexLeb_cons_iff ..).mpr (Or.inl h))
    · rcases lexLeb_total cs ds with ih | ih
      · exact Or.inl ((lexLeb_cons_iff ..).mpr (Or.inr ⟨h, ih⟩))
      · exact Or.inr ((lexLeb_cons_iff ..).mpr (Or.inr ⟨h.symm, ih⟩))
    · exact Or.inr ((lexLeb_cons_iff ..).mpr (Or.inl h))

theorem lexLeb_trans : ∀ as bs cs : List Char, lexLeb as bs = true →
    lexLeb bs cs = true → lexLeb as cs = true
  | [], _, _, _, _ => rfl
  | _ :: _, [], _, h, _ => by simp [lexLeb] at h
  | _ :: _, _ :: _, [], _, h => by simp [lexLeb] at h
  | a :: as, b :: bs, c :: cs, h1, h2 => by
    rcases (lexLeb_cons_iff ..).mp h1 with hab | ⟨hab, hr1⟩ <;>
      rcases (lexLeb_cons_iff ..).mp h2 with hbc | ⟨hbc, hr2⟩
    · exact (lexLeb_cons_iff ..).mpr (Or.inl (by omega))
    · exact (lexLeb_cons_iff ..).mpr (Or.inl (by omega))
    · exact (lexLeb_cons_iff ..).mpr (Or.inl (by omega))
    · exact (lexLeb_cons_iff ..).mpr
        (Or.inr ⟨by omega, lexLeb_trans as bs cs hr1 hr2⟩)

theorem textLE_total (a b : String) : textLE a b = true ∨ textLE b a = true :=
  lexLeb_total a.data b.data

theorem textLE_trans {a b c : String} (h1 : textLE a b = true)
    (h2 : textLE b c = true) : textLE a c = true :=
  lexLeb_trans a.data b.data c.data h1 h2

example :
    list_slots_for_physician demoDB "p1" true "2024-01-10T14:00:00+00:00" =
      [slotView demoSlot] := by decide

/-- C5 counterexample: the filter of the source is `end_utc >= now`, so a slot
whose end instant EQUALS `now` is returned — the claim says every slot with
`end <= now` is excluded. On the sample database, with `now` equal to the
slot's end instant, the slot appears in the output. -/
theorem list_slots_boundary_counterexample :
    slotView demoSlot ∈
        list_slots_for_physician demoDB "p1" true "2024-01-10T14:30:00+00:00" ∧
      textLE demoSlot.end_utc "2024-01-10T14:30:00+00:00" = true := by
  constructor
  · decide
  · decide

/-- C5 (amended): with `only_future`, the output of `list_slots_for_physician`
consists exactly of the views of the physician's slots whose end instant is
at or after `now` (so `end < now` is excluded and the `end = now` boundary is
included), and it is sorted ascending by start instant. `now` is the
`utcnow()` value the function reads internally, passed explicitly here. -/
theorem list_slots_future_filtering (db : DB) (physician_id now : String) :
    (∀ v : SlotView,
        v ∈ list_slots_for_physician db physician_id true now ↔
          ∃ s ∈ db.availability,
            s.physician_id = physician_id ∧ textLE now s.end_utc = true ∧
              v = slotView s) ∧
      (list_slots_for_physician db physician_id true now).Sorted viewLE := by
  constructor
  · intro v
    simp only [list_slots_for_physician, List.mem_map, List.mem_insertionSort,
      List.mem_filter, slotWhere, Bool.not_true, Bool.false_or,
      Bool.and_eq_true, beq_iff_eq]
    constructor
    · rintro ⟨s, ⟨hs, hp, hn⟩, hv⟩
      exact ⟨s, hs, hp, hn, hv.symm⟩
    · rintro ⟨s, hs, hp, hn, hv⟩
      exact ⟨s, ⟨hs, hp, hn⟩, hv.symm⟩
  · haveI : IsTotal Slot slotLE :=
      ⟨fun a b => textLE_total a.start_utc b.start_utc⟩
    haveI : IsTrans Slot slotLE := ⟨fun _ _ _ h h' => textLE_trans h h'⟩
    have h := List.sorted_insertionSort slotLE
      (db.availability.filter (slotWhere physician_id true now))
    exact List.Pairwise.map slotView (fun a b hab => hab) h

theorem foldl_choose_mem (trs : List (Int × Int)) (t : Int) :
    ∀ acc : Int, trs.foldl (fun acc tr => if tr.1 ≤ t then tr.2 else acc) acc ∈
      acc :: trs.map Prod.snd := by
  induction trs with
  | nil => intro acc; exact List.mem_singleton.mpr rfl
  | cons tr rest ih =>
    intro acc
    simp only [List.foldl_cons]
    rcases List.mem_cons.mp (ih (if tr.1 ≤ t then tr.2 else acc)) with h | h
    · rw [h]
      split
      · exact List.mem_cons_of_mem _ (List.mem_cons_self _ _)
      · exact List.mem_cons_self _ _
    · exact List.mem_cons_of_mem _ (List.mem_cons_of_mem _ h)

theorem offsetAt_mem_zoneOffsets (z : ZoneRules) (t : Int) :
    offsetAt z t ∈ zoneOffsets z :=
  foldl_choose_mem z.transitions t z.initOffset

theorem self_mem_absCandidates (z : ZoneRules) (t : Int) :
    t ∈ absCandidates z (toLocal z t) := by
  apply List.mem_filterMap.mpr
  refine ⟨offsetAt z t, offsetAt_mem_zoneOffsets z t, ?_⟩
  have ht : toLocal z t - offsetAt z t = t := by
    simp [toLocal]
  rw [ht]
  simp

theorem foldl_max_all_eq (t : Int) :
    ∀ l : List Int, (∀ c ∈ l, c = t) → l.foldl max t = t := by
  intro l
  induction l with
  | nil => intro _; rfl
  | cons a as ih =>
    intro h
    have ha : a = t := h a (List.mem_cons_self _ _)
    simp only [List.foldl_cons, ha, max_self]
    exact ih fun c hc => h c (List.mem_cons_of_mem _ hc)

theorem max?_all_eq (l : List Int) (t : Int) (ht : t ∈ l)
    (h : ∀ c ∈ l, c = t) : l.max? = some t := by
  cases l with
  | nil => cases ht
  | cons a as =>
    have ha : a = t := h a (List.mem_cons_self _ _)
    subst ha
    show some (as.foldl max a) = some a
    rw [foldl_max_all_eq a as fun c hc => h c (List.mem_cons_of_mem _ hc)]

/-- C7: the timezone round trip and error contract of the converter
(modelled from the spec, since `to_user_local` is missing from the truncated
source). For a recognized zone and an instant `t` at which the zone has no
DST-fold ambiguity (t is the only instant the zone maps to `toLocal z t`),
converting to local civil time and back yields `t`; both named conversions
fail with `InvalidTimeZone` exactly on unrecognized zone names. -/
theorem timezone_round_trip (name : String) (z : ZoneRules) (t : Int)
    (hz : lookupZone name = some z)
    (hfold : ∀ c ∈ absCandidates z (toLocal z t), c = t) :
    (to_user_local t name = .ok (toLocal z t) ∧
        to_absolute (toLocal z t) name = .ok (some t)) ∧
      ∀ name' : String, lookupZone name' = none →
        ∀ t' : Int, to_user_local t' name' = .error .InvalidTimeZone ∧
          to_absolute t' name' = .error .InvalidTimeZone := by
  refine ⟨⟨?_, ?_⟩, ?_⟩
  · simp [to_user_local, hz]
  · have hrt : toAbsolute z (toLocal z t) = some t :=
      max?_all_eq _ t (self_mem_absCandidates z t) hfold
    simp [to_absolute, hz, hrt]
  · intro name' hn t'
    exact ⟨by simp [to_user_local, hn], by simp [to_absolute, hn]⟩

/-- Witness for C7 at a concrete input: zone `Asia/Karachi` (offset +300)
at instant 1000 round-trips, and the unrecognized name `Not/A_Zone` yields
`InvalidTimeZone`. -/
theorem timezone_round_trip_witness :
    (to_user_local 1000 "Asia/Karachi" = .ok 1300 ∧
        to_absolute 1300 "Asia/Karachi" = .ok (some 1000)) ∧
      to_user_local 1000 "Not/A_Zone" = .error .InvalidTimeZone := by
  have h := timezone_round_trip "Asia/Karachi" ⟨300, []⟩ 1000 (by decide)
    (by decide)
  exact ⟨⟨h.1.1, h.1.2⟩, (h.2 "Not/A_Zone" (by decide) 1000).1⟩

/-- C4 counterexample: `book_slot` never consults a timezone validator — with
the unrecognized zone name `Not/A_Zone` it still succeeds on the sample
database, claims the slot and creates an appointment (storing the bogus zone
verbatim), where the claim requires an `InvalidTimeZone` failure with the
slot untouched and no appointment created. -/
theorem book_invalid_zone_counterexample :
    recognizedZone "Not/A_Zone" = false ∧
      (book_slot demoDB "s1" "Alice" "alice@example.com" "Not/A_Zone" "fever"
          "a1" "2024-01-01T00:00:00").1 = .ok "a1" ∧
      slotClaimed
          (book_slot demoDB "s1" "Alice" "alice@example.com" "Not/A_Zone"
              "fever" "a1" "2024-01-01T00:00:00").2 "s1" = true ∧
      (book_slot demoDB "s1" "Alice" "alice@example.com" "Not/A_Zone" "fever"
            "a1" "2024-01-01T00:00:00").2.appointments.map
          (fun a => (a.id, a.user_timezone)) = [("a1", "Not/A_Zone")] := by
  refine ⟨by decide, by decide, by decide, by decide⟩

/-- C4 (amended): `book_slot` performs no timezone validation at all — its
outcome (success or error) and its effect on the availability table are
independent of the `user_tz` argument, which is only copied verbatim into the
stored appointment; no `InvalidTimeZone` error path exists in the source. -/
theorem book_slot_ignores_user_tz (db : DB)
    (slot_id user_name user_email tz tz' reason appt_id created_at : String) :
    (book_slot db slot_id user_name user_email tz reason appt_id
          created_at).1 =
        (book_slot db slot_id user_name user_email tz' reason appt_id
          created_at).1 ∧
      (book_slot db slot_id user_name user_email tz reason appt_id
            created_at).2.availability =
        (book_slot db slot_id user_name user_email tz' reason appt_id
          created_at).2.availability := by
  unfold book_slot
  cases findSlot db slot_id with
  | none => exact ⟨rfl, rfl⟩
  | some s =>
    by_cases hb : s.booked
    · simp [hb]
    · cases hp : db.physicians.find? (fun p => p.id == s.physician_id) with
      | none => simp [hb, hp]
      | some p => simp [hb, hp]

theorem slotClaimed_eq_claimedIn (db : DB) (slot_id : String) :
    slotClaimed db slot_id = claimedIn db.availability slot_id := rfl

theorem claimedIn_markBooked (avail : List Slot) (slot_id target : String)
    (h : claimedIn avail slot_id = true) :
    claimedIn (markBooked avail target) slot_id = true := by
  induction avail with
  | nil => exact h
  | cons a l ih =>
    by_cases ha : (a.id == slot_id) = true
    · have hid : (if a.id == target then { a with booked := true } else a).id
          = a.id := by split <;> rfl
      have hbk : a.booked = true → (if a.id == target then
          { a with booked := true } else a).booked = true := by
        intro hab; split <;> simp [hab]
      simp only [claimedIn, List.find?, ha, cond_true] at h
      simp only [markBooked, List.map_cons, claimedIn, List.find?, hid, ha,
        cond_true]
      exact hbk h
    · have hid : (if a.id == target then { a with booked := true } else a).id
          = a.id := by split <;> rfl
      simp only [claimedIn, List.find?, ha, cond_false] at h
      simp only [markBooked, List.map_cons, claimedIn, List.find?, hid, ha,
        cond_false]
      exact ih h

theorem claimedIn_append (avail extra : List Slot) (slot_id : String)
    (h : claimedIn avail slot_id = true) :
    claimedIn (avail ++ extra) slot_id = true := by
  induction avail with
  | nil => exact absurd h (by simp [claimedIn])
  | cons a l ih =>
    by_cases ha : (a.id == slot_id) = true
    · simp only [claimedIn, List.find?, ha, cond_true] at h
      simp only [List.cons_append, claimedIn, List.find?, ha, cond_true]
      exact h
    · simp only [claimedIn, List.find?, ha, cond_false] at h
      simp only [List.cons_append, claimedIn, List.find?, ha, cond_false]
      exact ih h

theorem applyOp_preserves_claimed (db : DB) (op : CoreOp) (slot_id : String)
    (h : slotClaimed db slot_id = true) :
    slotClaimed (applyOp db op) slot_id = true := by
  rw [slotClaimed_eq_claimedIn] at h
  cases op with
  | book sid un ue tz rsn aid ca =>
    show claimedIn (book_slot db sid un ue tz rsn aid ca).2.availability
      slot_id = true
    unfold book_slot
    cases hf : findSlot db sid with
    | none => exact h
    | some s =>
      by_cases hb : s.booked
      · simpa [hb] using h
      · cases hp : db.physicians.find? (fun p => p.id == s.physician_id) with
        | none => simpa [hp, hb] using h
        | some p =>
          simpa [hp, hb] using claimedIn_markBooked db.availability slot_id sid h
  | publish i pid s e =>
    show claimedIn (insert_slot db i pid s e).availability slot_id = true
    unfold insert_slot
    split
    · exact h
    · exact claimedIn_append db.availability _ slot_id h
  | addPhysician p =>
    show claimedIn (insert_physician db p).availability slot_id = true
    unfold insert_physician
    split <;> exact h
  | rename pid n => exact h

/-- C6: a slot's claim state never goes back from claimed to unclaimed. No
operation of the core (booking, seeding inserts, the external rename) writes
`booked = 0` to an existing availability row, so once the flag of a slot is
observed `true`, it is `true` after any further sequence of operations. -/
theorem claimed_slots_stay_claimed (ops : List CoreOp) (db : DB)
    (slot_id : String) (h : slotClaimed db slot_id = true) :
    slotClaimed (applyOps db ops) slot_id = true := by
  induction ops generalizing db with
  | nil => exact h
  | cons op rest ih =>
    exact ih (applyOp db op) (applyOp_preserves_claimed db op slot_id h)

/-- Witness for C6 at a concrete input: after booking `s1` on the sample
database, it stays claimed across a second booking attempt, a new published
slot and a physician rename. -/
theorem claimed_slots_stay_claimed_witness :
    slotClaimed
        (applyOps
          (book_slot demoDB "s1" "Alice" "alice@example.com"
              "America/New_York" "fever" "a1" "2024-01-01T00:00:00").2
          [.book "s1" "Bob" "bob@example.com" "Europe/Madrid" "cough" "a2"
              "2024-01-01T00:00:01",
            .publish "s2" "p1" "2024-01-11T14:00:00+00:00"
              "2024-01-11T14:30:00+00:00",
            .rename "p1" "Dr. A. Rahman-Khan"]) "s1" = true :=
  claimed_slots_stay_claimed _ _ "s1" (by decide)

/-- C8: the physician name on an appointment is resolved and copied at
booking time. A successful `book_slot` stores the physician's `full_name` as
it is at that moment, together with the slot's start/end instants; a
subsequent rename of the physician leaves the appointments table untouched,
so the stored record and the `list_user_appointments` read of it still carry
the booking-time name and instants. -/
theorem denormalized_name_stable (db : DB)
    (sid un ue tz rsn aid ca new_name : String) (s : Slot) (p : Physician)
    (hs : findSlot db sid = some s) (hb : s.booked = false)
    (hp : db.physicians.find? (fun q => q.id == s.physician_id) = some p) :
    (book_slot db sid un ue tz rsn aid ca).1 = .ok aid ∧
      (rename_physician (book_slot db sid un ue tz rsn aid ca).2
            s.physician_id new_name).appointments =
        (book_slot db sid un ue tz rsn aid ca).2.appointments ∧
      mkAppointment s p.full_name un ue tz rsn aid ca ∈
        (rename_physician (book_slot db sid un ue tz rsn aid ca).2
            s.physician_id new_name).appointments ∧
      (mkAppointment s p.full_name un ue tz rsn aid ca).physician_name =
        p.full_name ∧
      (mkAppointment s p.full_name un ue tz rsn aid ca).start_utc =
        s.start_utc ∧
      (mkAppointment s p.full_name un ue tz rsn aid ca).end_utc = s.end_utc ∧
      apptView (mkAppointment s p.full_name un ue tz rsn aid ca) ∈
        list_user_appointments
          (rename_physician (book_slot db sid un ue tz rsn aid ca).2
            s.physician_id new_name) ue := by
  have hbook : book_slot db sid un ue tz rsn aid ca =
      (.ok aid,
        { db with
            appointments := db.appointments ++
              [mkAppointment s p.full_name un ue tz rsn aid ca],
            availability := markBooked db.availability sid }) := by
    unfold book_slot
    rw [hs]
    simp [hb, hp]
  refine ⟨by rw [hbook], rfl, ?_, rfl, rfl, rfl, ?_⟩
  · rw [hbook]
    show mkAppointment s p.full_name un ue tz rsn aid ca ∈
      db.appointments ++ [mkAppointment s p.full_name un ue tz rsn aid ca]
    exact List.mem_append_right _ (List.mem_singleton.mpr rfl)
  · unfold list_user_appointments
    apply List.mem_map_of_mem apptView
    apply List.mem_filter.mpr
    refine ⟨?_, by simp [mkAppointment]⟩
    rw [hbook]
    show mkAppointment s p.full_name un ue tz rsn aid ca ∈
      db.appointments ++ [mkAppointment s p.full_name un ue tz rsn aid ca]
    exact List.mem_append_right _ (List.mem_singleton.mpr rfl)

/-- Witness for C8 at a concrete input: booking `s1` for Dr. Aisha Rahman and
then renaming the physician leaves the stored appointment with the
booking-time name. -/
theorem denormalized_name_stable_witness :
    apptView (mkAppointment demoSlot "Dr. Aisha Rahman" "Alice"
        "alice@example.com" "America/New_York" "fever" "a1"
        "2024-01-01T00:00:00") ∈
      list_user_appointments
        (rename_physician
          (book_slot demoDB "s1" "Alice" "alice@example.com"
              "America/New_York" "fever" "a1" "2024-01-01T00:00:00").2
          "p1" "Dr. A. Rahman-Khan") "alice@example.com" := by
  have h := denormalized_name_stable demoDB "s1" "Alice" "alice@example.com"
    "America/New_York" "fever" "a1" "2024-01-01T00:00:00" "Dr. A. Rahman-Khan"
    demoSlot demoPhysician (by decide) (by decide) (by decide)
  exact h.2.2.2.2.2.2

/-- The effect of `book_slot` on the availability table: an error leaves it
alone, a success marks the booked row. -/
theorem book_slot_availability (db : DB) (sid un ue tz rsn aid ca : String) :
    (book_slot db sid un ue tz rsn aid ca).2.availability = db.availability ∨
      (book_slot db sid un ue tz rsn aid ca).2.availability =
        markBooked db.availability sid := by
  unfold book_slot
  cases hf : findSlot db sid with
  | none => exact Or.inl rfl
  | some s =>
    by_cases hb : s.booked
    · left
      simp [hb]
    · cases hp : db.physicians.find? (fun p => p.id == s.physician_id) with
      | none =>
        left
        simp [hb, hp]
      | some p =>
        right
        simp [hb, hp]

theorem slotWhere_upd (pid : String) (only_future : Bool) (now sid : String)
    (a : Slot) :
    slotWhere pid only_future now
        (if a.id == sid then { a with booked := true } else a) =
      slotWhere pid only_future now a := by
  unfold slotWhere
  split <;> rfl

theorem slotLE_upd (sid : String) (a b : Slot) :
    slotLE a b ↔
      slotLE (if a.id == sid then { a with booked := true } else a)
        (if b.id == sid then { b with booked := true } else b) := by
  unfold slotLE
  split <;> split <;> exact Iff.rfl

theorem viewKey_upd (sid : String) (a : Slot) :
    viewKey (slotView (if a.id == sid then { a with booked := true } else a)) =
      viewKey (slotView a) := by
  split <;> rfl

/-- C9: `list_slots_for_physician` has no condition on the `booked` column —
a `book_slot` call (whether it succeeds and claims a slot, or fails) never
changes which rows the listing returns or their order: the id/start/end
columns of the output are unchanged, only the reported claim flag of the
booked row can differ. In particular a claimed slot still appears in the
listing exactly as it did unclaimed. -/
theorem listing_independent_of_claim (db : DB)
    (sid un ue tz rsn aid ca pid now : String) (only_future : Bool) :
    (list_slots_for_physician (book_slot db sid un ue tz rsn aid ca).2 pid
          only_future now).map viewKey =
      (list_slots_for_physician db pid only_future now).map viewKey := by
  rcases book_slot_availability db sid un ue tz rsn aid ca with h | h
  · unfold list_slots_for_physician
    rw [h]
  · unfold list_slots_for_physician
    rw [h]
    have e1 : (markBooked db.availability sid).filter
          (slotWhere pid only_future now) =
        (db.availability.filter (slotWhere pid only_future now)).map
          (fun t => if t.id == sid then { t with booked := true } else t) := by
      show ((db.availability.map
          (fun t => if t.id == sid then { t with booked := true } else t)).filter
            (slotWhere pid only_future now)) = _
      rw [List.filter_map]
      congr 1
      exact List.filter_congr
        (fun a _ => slotWhere_upd pid only_future now sid a)
    have e2 : ((db.availability.filter (slotWhere pid only_future now)).map
          (fun t => if t.id == sid then { t with booked := true } else t)).insertionSort
            slotLE =
        ((db.availability.filter
            (slotWhere pid only_future now)).insertionSort slotLE).map
          (fun t => if t.id == sid then { t with booked := true } else t) :=
      (List.map_insertionSort slotLE slotLE _ _
        (fun a _ b _ => slotLE_upd sid a b)).symm
    rw [e1, e2, List.map_map, List.map_map, List.map_map]
    exact List.map_congr_left (fun a _ => viewKey_upd sid a)

/-- C10: `book_slot` imposes no temporal precondition. Its only checks are
that the slot row exists, that it is unclaimed, and that its physician
exists; the slot's start/end instants are arbitrary here, and booking
succeeds and records a `scheduled` appointment carrying them. -/
theorem book_no_temporal_precondition (db : DB)
    (sid un ue tz rsn aid ca : String) (s : Slot) (p : Physician)
    (hs : findSlot db sid = some s) (hb : s.booked = false)
    (hp : db.physicians.find? (fun q => q.id == s.physician_id) = some p) :
    (book_slot db sid un ue tz rsn aid ca).1 = .ok aid ∧
      mkAppointment s p.full_name un ue tz rsn aid ca ∈
        (book_slot db sid un ue tz rsn aid ca).2.appointments ∧
      (mkAppointment s p.full_name un ue tz rsn aid ca).status =
        "scheduled" ∧
      (mkAppointment s p.full_name un ue tz rsn aid ca).start_utc =
        s.start_utc ∧
      (mkAppointment s p.full_name un ue tz rsn aid ca).end_utc =
        s.end_utc := by
  have hbook : book_slot db sid un ue tz rsn aid ca =
      (.ok aid,
        { db with
            appointments := db.appointments ++
              [mkAppointment s p.full_name un ue tz rsn aid ca],
            availability := markBooked db.availability sid }) := by
    unfold book_slot
    rw [hs]
    simp [hb, hp]
  refine ⟨by rw [hbook], ?_, rfl, rfl, rfl⟩
  rw [hbook]
  show mkAppointment s p.full_name un ue tz rsn aid ca ∈
    db.appointments ++ [mkAppointment s p.full_name un ue tz rsn aid ca]
  exact List.mem_append_right _ (List.mem_singleton.mpr rfl)

/-- Witness for C10 at a concrete input: a slot that ended in 2000 is booked
in 2026 — the slot's end precedes the booking instant, yet booking succeeds
with a `scheduled` appointment. -/
theorem book_no_temporal_precondition_witness :
    textLE pastSlot.end_utc "2026-10-12T00:00:00+00:00" = true ∧
      (book_slot pastDB "s0" "Alice" "alice@example.com" "America/New_York"
          "fever" "a9" "2026-10-12T00:00:00+00:00").1 = .ok "a9" := by
  have h := book_no_temporal_precondition pastDB "s0" "Alice"
    "alice@example.com" "America/New_York" "fever" "a9"
    "2026-10-12T00:00:00+00:00" pastSlot demoPhysician (by decide) (by decide)
    (by decide)
  exact ⟨by decide, h.1⟩

end PhysicianConnect
